import Mathlib

/-!
Verification of the interactive commit-message tool (git-commit-guide).

The repository holds two variants of the same Go program:
* `src/unnamed/part_000` — the current variant: ordered slice catalog,
  work-item pattern `^bcds-\d+(-[a-z0-9]+)*$` applied to the lowercased
  input, the initial-capital rule commented out, and an optional
  multi-line body collector.
* `src/main.go` — the older variant: catalog stored in a Go `map[int]`,
  work-item pattern `^([A-Za-z]+-)?\d+$`, initial-capital rule active,
  no body collector.

This file is a shallow embedding of both, at the level of characters
(one Lean `Char` per Unicode code point).  Go's `strings.ToLower`,
`strings.ToUpper` and `strings.TrimSpace` are modelled on the ASCII
range, which is the range all validators constrain; byte lengths and
rune lengths agree on the ASCII strings the validators accept.
-/

/-! ## Character helpers (ASCII models of the Go `strings` functions) -/

/-- ASCII decimal digit `0`–`9` (regex `\d` over ASCII input). -/
def isDigitChar (c : Char) : Bool := decide (48 ≤ c.toNat ∧ c.toNat ≤ 57)

/-- Lowercase Latin letter `a`–`z`. -/
def isLowerAlphaChar (c : Char) : Bool := decide (97 ≤ c.toNat ∧ c.toNat ≤ 122)

/-- Uppercase Latin letter `A`–`Z`. -/
def isUpperAlphaChar (c : Char) : Bool := decide (65 ≤ c.toNat ∧ c.toNat ≤ 90)

/-- Model of Go `unicode.ToLower` on the ASCII range: uppercase Latin
letters are shifted down by 32, everything else is fixed. -/
def lowerChar (c : Char) : Char :=
  if 65 ≤ c.toNat ∧ c.toNat ≤ 90 then Char.ofNat (c.toNat + 32) else c

/-- Model of Go `unicode.ToUpper` on the ASCII range: lowercase Latin
letters are shifted up by 32, everything else is fixed. -/
def upperChar (c : Char) : Char :=
  if 97 ≤ c.toNat ∧ c.toNat ≤ 122 then Char.ofNat (c.toNat - 32) else c

/-- Model of Go `strings.ToLower` (ASCII range). -/
def goToLower (s : String) : String := ⟨s.data.map lowerChar⟩

/-- ASCII whitespace, the ASCII fragment of Go `unicode.IsSpace`:
space, tab, newline, vertical tab, form feed, carriage return. -/
def isSpaceChar (c : Char) : Bool :=
  c == ' ' || c == '\t' || c == '\n' || c == '\x0b' || c == '\x0c' || c == '\r'

/-- Model of Go `strings.TrimSpace`: drop whitespace from both ends. -/
def trimSpace (s : String) : String :=
  ⟨List.rdropWhile isSpaceChar (s.data.dropWhile isSpaceChar)⟩

/-- `readLine` of `part_000` (lines 72–77) and `readInput` of `main.go`
(lines 67–72): the value handed to the caller for a raw input line is
the line with surrounding whitespace trimmed. -/
def readLine (line : String) : String := trimSpace line

/-! ## Work-item validator (`part_000` lines 30–33)

`validateWorkItem` embeds the regex `^bcds-\d+(-[a-z0-9]+)*$`.  Since
neither `\d` nor `[a-z0-9]` matches `-`, the regex is deterministic and
is implemented as a left-to-right scan. -/

/-- Character admitted by the regex class `[a-z0-9]`. -/
def isLowerAlnumChar (c : Char) : Bool := isLowerAlphaChar c || isDigitChar c

/-- Scanner state for the tail `\d+(-[a-z0-9]+)*` of the work-item regex:
`numFirst`/`num` inside the digit block (first digit still owed / not),
`segFirst`/`seg` inside a `[a-z0-9]+` segment. -/
inductive ScanMode where
  | numFirst
  | num
  | segFirst
  | seg
deriving DecidableEq

/-- Scan of `\d+(-[a-z0-9]+)*` (anchored at the end of the string). -/
def scanTail : ScanMode → List Char → Bool
  | .numFirst, [] => false
  | .num, [] => true
  | .segFirst, [] => false
  | .seg, [] => true
  | .numFirst, c :: rest => isDigitChar c && scanTail .num rest
  | .num, c :: rest =>
      if c = '-' then scanTail .segFirst rest
      else isDigitChar c && scanTail .num rest
  | .segFirst, c :: rest => isLowerAlnumChar c && scanTail .seg rest
  | .seg, c :: rest =>
      if c = '-' then scanTail .segFirst rest
      else isLowerAlnumChar c && scanTail .seg rest

/-- `validateWorkItem` of `part_000`: match against `^bcds-\d+(-[a-z0-9]+)*$`. -/
def validateWorkItem (s : String) : Bool :=
  match s.data with
  | b :: c :: d :: e :: f :: rest =>
      if b = 'b' ∧ c = 'c' ∧ d = 'd' ∧ e = 's' ∧ f = '-' then
        scanTail .numFirst rest
      else false
  | _ => false

/-! Spec-side (claim C3) case-insensitive form of the same pattern. -/

/-- Character admitted by `[a-z0-9]` under case-insensitive matching. -/
def isAlnumCIChar (c : Char) : Bool :=
  isLowerAlphaChar c || isUpperAlphaChar c || isDigitChar c

/-- Case-insensitive scan of `\d+(-[a-z0-9]+)*`. -/
def scanTailCI : ScanMode → List Char → Bool
  | .numFirst, [] => false
  | .num, [] => true
  | .segFirst, [] => false
  | .seg, [] => true
  | .numFirst, c :: rest => isDigitChar c && scanTailCI .num rest
  | .num, c :: rest =>
      if c = '-' then scanTailCI .segFirst rest
      else isDigitChar c && scanTailCI .num rest
  | .segFirst, c :: rest => isAlnumCIChar c && scanTailCI .seg rest
  | .seg, c :: rest =>
      if c = '-' then scanTailCI .segFirst rest
      else isAlnumCIChar c && scanTailCI .seg rest

/-- The claim's pattern `^bcds-\d+(-[a-z0-9]+)*$` matched
case-insensitively against the raw (un-lowercased) string.  This is the
spec-side definition the source validator is compared against. -/
def matchWorkItemCI (s : String) : Bool :=
  match s.data with
  | b :: c :: d :: e :: f :: rest =>
      if (b = 'b' ∨ b = 'B') ∧ (c = 'c' ∨ c = 'C') ∧ (d = 'd' ∨ d = 'D') ∧
          (e = 's' ∨ e = 'S') ∧ f = '-' then
        scanTailCI .numFirst rest
      else false
  | _ => false

/-! ## Commit-type catalog -/

/-- `CommitType` of `part_000` (lines 36–39): a catalog entry. -/
structure CommitType where
  code : String
  description : String
deriving DecidableEq, Inhabited

/-- `getCommitTypes` of `part_000` (lines 42–55): the fixed ordered
catalog, verbatim. -/
def getCommitTypes : List CommitType :=
  [⟨"feat", "新功能 (A new feature)"⟩,
   ⟨"fix", "Bug修复 (A bug fix)"⟩,
   ⟨"docs", "文档更新 (Documentation only changes)"⟩,
   ⟨"style", "代码格式 (Changes that do not affect code meaning)"⟩,
   ⟨"refactor", "代码重构 (Neither fixes bug nor adds feature)"⟩,
   ⟨"perf", "性能优化 (A code change that improves performance)"⟩,
   ⟨"test", "测试相关 (Adding or correcting tests)"⟩,
   ⟨"build", "构建相关 (Affect build system or dependencies)"⟩,
   ⟨"ci", "CI配置 (Changes to CI configuration files)"⟩,
   ⟨"chore", "其他杂项 (Other changes)"⟩]

/-- The catalog codes in the fixed order the spec states verbatim. -/
def catalogCodes : List String :=
  ["feat", "fix", "docs", "style", "refactor", "perf", "test", "build", "ci", "chore"]

/-- `getCommitTypes` of `main.go` (lines 28–47): the same ten entries,
but stored in a Go `map[int]struct{...}` keyed 1–10.  Modelled as the
key/value association list; crucially, Go does not expose any iteration
order on this map. -/
def mainGoCommitTypes : List (Nat × CommitType) :=
  [(1, ⟨"feat", "新功能 (A new feature)"⟩),
   (2, ⟨"fix", "Bug修复 (A bug fix)"⟩),
   (3, ⟨"docs", "文档更新 (Documentation only changes)"⟩),
   (4, ⟨"style", "代码格式 (Changes that do not affect code meaning)"⟩),
   (5, ⟨"refactor", "代码重构 (Neither fixes bug nor adds feature)"⟩),
   (6, ⟨"perf", "性能优化 (A code change that improves performance)"⟩),
   (7, ⟨"test", "测试相关 (Adding or correcting tests)"⟩),
   (8, ⟨"build", "构建相关 (Affect build system or dependencies)"⟩),
   (9, ⟨"ci", "CI配置 (Changes to CI configuration files)"⟩),
   (10, ⟨"chore", "其他杂项 (Other changes)"⟩)]

/-- Menu of `part_000` (lines 119–121): `for i, ct := range commitTypes`
over the slice prints entry `i` (0-based) with number `i+1`, in slice
order.  Modelled as the list of (displayed number, code) in display
order. -/
def part000Menu : List (Nat × String) :=
  getCommitTypes.enum.map (fun p => (p.1 + 1, p.2.code))

/-- Menu of `main.go` (lines 96–99): `for i, ct := range commitTypes`
over the `map[int]`.  Go's map iteration order is unspecified and
deliberately randomized between runs, so the visit order of the keys is
a parameter; each entry is displayed with its own key as its number. -/
def mainGoMenu (order : List Nat) : List (Nat × String) :=
  order.filterMap fun i => (mainGoCommitTypes.lookup i).map fun ct => (i, ct.code)

/-! ## Short-description validators -/

/-- Character class of `main.go`'s description regex
`^[A-Za-z0-9 ,.!?\-\(\)]+$` (line 62). -/
def isDescCharMain (c : Char) : Bool :=
  isUpperAlphaChar c || isLowerAlphaChar c || isDigitChar c ||
    c == ' ' || c == ',' || c == '.' || c == '!' || c == '?' || c == '-' ||
    c == '(' || c == ')'

/-- Character class of `part_000`'s description regex as it literally
stands in the file (line 67): the class reads
`[A-Za-z0-9 ,.!?\-$begin:math:text$$end:math:text$]`, i.e. the two
parenthesis escapes of `main.go`'s class were replaced by the literal
text `$begin:math:text$` / `$end:math:text$`.  Inside a character class
every one of those characters is a literal member, so beyond the
letter/digit ranges and the punctuation the class admits `$` and `:`
(the letters it lists are already inside `A-Za-z`) and does not admit
`(` or `)`. -/
def isDescCharPart000 (c : Char) : Bool :=
  isUpperAlphaChar c || isLowerAlphaChar c || isDigitChar c ||
    c == ' ' || c == ',' || c == '.' || c == '!' || c == '?' || c == '-' ||
    c == '$' || c == ':'

/-- `validateEnglishDescription` of `part_000` (lines 58–69): empty or
longer than 72 rejects, otherwise match against the character class
(the initial-capital rule of lines 62–65 is commented out there).  The
`+` of the regex demands one character, which the length guard already
ensures. -/
def validateEnglishDescription (desc : String) : Bool :=
  if desc.data.length = 0 ∨ 72 < desc.data.length then false
  else desc.data.all isDescCharPart000

/-- `validateEnglishDescription` of `main.go` (lines 50–64): as above
but with `main.go`'s character class, and with the initial-capital rule
active: the description is rejected when uppercasing its first
character changes it, i.e. exactly when the first character is a
lowercase Latin letter. -/
def validateEnglishDescriptionMain (desc : String) : Bool :=
  if desc.data.length = 0 then false
  else if 72 < desc.data.length then false
  else
    match desc.data with
    | [] => false
    | c :: _ =>
        if upperChar c ≠ c then false
        else desc.data.all isDescCharMain

/-- Spec-side (claim C9) predicate: the string starts with an uppercase
Latin letter. -/
def startsWithUpper (s : String) : Bool :=
  match s.data with
  | [] => false
  | c :: _ => isUpperAlphaChar c

/-! ## Commit-type selection (`part_000` lines 123–132) -/

/-- Model of Go `strconv.Atoi` digit loop: consume decimal digits into
an accumulator; any non-digit is an error. -/
def digitsToNat : List Char → Nat → Option Nat
  | [], acc => some acc
  | c :: rest, acc =>
      if isDigitChar c then digitsToNat rest (10 * acc + (c.toNat - 48))
      else none

/-- One or more decimal digits, else `none`. -/
def parseDigits : List Char → Option Nat
  | [] => none
  | l => digitsToNat l 0

/-- Model of Go `strconv.Atoi`: optional sign, then one or more digits;
anything else is an error.  (Go additionally errors on 64-bit overflow;
overflowing inputs are rejected by the selector's range check in either
reading, so the model omits the overflow bound.) -/
def atoi (s : String) : Option Int :=
  match s.data with
  | '+' :: rest => (parseDigits rest).map fun n => (n : Int)
  | '-' :: rest => (parseDigits rest).map fun n => -(n : Int)
  | l => (parseDigits l).map fun n => (n : Int)

/-- One attempt of the type-selection loop of `part_000` (lines
123–132): parse the input with `Atoi`; accept iff it parses and lies in
`[1, len(commitTypes)]`, in which case the chosen code is
`commitTypes[choice-1].code`. -/
def selectCommitType (input : String) : Option String :=
  match atoi input with
  | none => none
  | some choice =>
      if 1 ≤ choice ∧ choice ≤ (getCommitTypes.length : Int) then
        some ((getCommitTypes.getD (choice - 1).toNat default).code)
      else none

/-! ## Optional body collector (`part_000` lines 80–93) -/

/-- `readMultiline` of `part_000`: read lines until a line that is empty
after `TrimSpace` (a blank line), collecting the lines before it
verbatim.  Returns the collected lines and the input remaining after
the terminator; an exhausted input also terminates (Go's scanner yields
`""` at EOF, which trims to `""`). -/
def readMultiline : List String → List String × List String
  | [] => ([], [])
  | line :: rest =>
      if trimSpace line = "" then ([], rest)
      else
        let (ls, rem) := readMultiline rest
        (line :: ls, rem)

/-- The body string `readMultiline` returns: collected lines joined
with `"\n"` (`strings.Join(lines, "\n")`). -/
def readMultilineBody (inputs : List String) : String :=
  String.intercalate "\n" (readMultiline inputs).1

/-- Spec-side (claim C8) collector: the lines strictly before the first
literally empty input line. -/
def specLinesUntilEmpty : List String → List String
  | [] => []
  | line :: rest => if line = "" then [] else line :: specLinesUntilEmpty rest

/-- Spec-side (claim C8) body: those lines joined with `"\n"`. -/
def specBodyUntilEmpty (inputs : List String) : String :=
  String.intercalate "\n" (specLinesUntilEmpty inputs)

/-! ## Message assembly (`part_000` lines 148–152) -/

/-- `commitMessage` construction: `fmt.Sprintf("%s(%s): %s", ...)`, and
when the body is non-empty, `commitMessage + "\n\n" + body`. -/
def assembleCommitMessage (t w d b : String) : String :=
  let firstLine := t ++ "(" ++ w ++ "): " ++ d
  if b = "" then firstLine else firstLine ++ "\n\n" ++ b

/-! ## The prompt loops and the whole run (`part_000` `main`) -/

/-- One attempt of the work-item loop (lines 107–114): lowercase the
trimmed line, accept iff `validateWorkItem` holds. -/
def workItemStep (line : String) : Option String :=
  let w := goToLower (readLine line)
  if validateWorkItem w then some w else none

/-- One attempt of the type-selection loop: trim, then select. -/
def typeStep (line : String) : Option String :=
  selectCommitType (readLine line)

/-- One attempt of the description loop (lines 136–143): trim the line,
accept iff `validateEnglishDescription` holds. -/
def descStep (line : String) : Option String :=
  let d := readLine line
  if validateEnglishDescription d then some d else none

/-- The confirmation test (lines 160–161): the answer is lowercased on
read, lowercased again in the comparisons, and is affirmative iff the
result is `"y"` or `"yes"`. -/
def confirmAffirmative (ans : String) : Bool :=
  let confirm := goToLower (readLine ans)
  decide (goToLower confirm = "y" ∨ goToLower confirm = "yes")

/-- The work-item re-prompt loop: consume input lines until one
validates; `none` when the input is exhausted first. -/
def workItemLoop : List String → Option (String × List String)
  | [] => none
  | line :: rest =>
      match workItemStep line with
      | some w => some (w, rest)
      | none => workItemLoop rest

/-- The type-selection re-prompt loop. -/
def typeLoop : List String → Option (String × List String)
  | [] => none
  | line :: rest =>
      match typeStep line with
      | some code => some (code, rest)
      | none => typeLoop rest

/-- The description re-prompt loop. -/
def descLoop : List String → Option (String × List String)
  | [] => none
  | line :: rest =>
      match descStep line with
      | some d => some (d, rest)
      | none => descLoop rest

/-- Observable outcome of one run: the process exit status, the message
handed to the external `git commit -m` (`none` when the commit was
never invoked), and the input lines left unread. -/
structure RunResult where
  exitCode : Nat
  commitMsg : Option String
  remaining : List String
deriving DecidableEq

/-- Confirmation and submission (lines 159–171): a non-affirmative
answer prints the cancellation message and exits 0 without invoking the
commit; an affirmative answer invokes `git commit -m msg`, exiting 1 on
failure and 0 (fall-through to the banner) on success. -/
def confirmStep (msg : String) (commitOk : Bool) : List String → Option RunResult
  | [] => none
  | ans :: rest =>
      if confirmAffirmative ans = false then some ⟨0, none, rest⟩
      else if commitOk then some ⟨0, some msg, rest⟩
      else some ⟨1, some msg, rest⟩

/-- `main` of `part_000` (lines 96–177).  `stagedChanges` abstracts the
`git diff --cached --quiet` probe: with `--quiet` the command exits 0
(Go `err == nil`) exactly when nothing is staged, in which case `main`
prints an error and exits 1 before any prompt.  `commitOk` abstracts
the external `git commit` outcome.  `none` models a run stuck forever
re-prompting on an exhausted input list. -/
def mainRun (stagedChanges : Bool) (commitOk : Bool) (inputs : List String) :
    Option RunResult :=
  if stagedChanges = false then some ⟨1, none, inputs⟩
  else
    match workItemLoop inputs with
    | none => none
    | some (w, r1) =>
        match typeLoop r1 with
        | none => none
        | some (t, r2) =>
            match descLoop r2 with
            | none => none
            | some (d, r3) =>
                let (bodyLines, r4) := readMultiline r3
                let body := String.intercalate "\n" bodyLines
                confirmStep (assembleCommitMessage t w d body) commitOk r4

/-! ## Helper lemmas -/

theorem char_toNat_ofNat_valid (n : Nat) (h : n < 55296) : (Char.ofNat n).toNat = n := by
  rw [Char.ofNat, dif_pos (Or.inl h : Nat.isValidChar n)]
  rfl

theorem char_eq_iff_toNat {c d : Char} : c = d ↔ c.toNat = d.toNat :=
  ⟨fun h => h ▸ rfl, fun h => Char.ext (UInt32.ext h)⟩

theorem lowerChar_toNat (c : Char) :
    (lowerChar c).toNat = if 65 ≤ c.toNat ∧ c.toNat ≤ 90 then c.toNat + 32 else c.toNat := by
  unfold lowerChar
  by_cases h : 65 ≤ c.toNat ∧ c.toNat ≤ 90
  · rw [if_pos h, if_pos h, char_toNat_ofNat_valid _ (by omega)]
  · rw [if_neg h, if_neg h]

theorem upperChar_toNat (c : Char) :
    (upperChar c).toNat = if 97 ≤ c.toNat ∧ c.toNat ≤ 122 then c.toNat - 32 else c.toNat := by
  unfold upperChar
  by_cases h : 97 ≤ c.toNat ∧ c.toNat ≤ 122
  · rw [if_pos h, if_pos h, char_toNat_ofNat_valid _ (by omega)]
  · rw [if_neg h, if_neg h]

theorem lowerChar_idem (c : Char) : lowerChar (lowerChar c) = lowerChar c := by
  rw [char_eq_iff_toNat, lowerChar_toNat, lowerChar_toNat]
  split_ifs <;> omega

theorem goToLower_idem (s : String) : goToLower (goToLower s) = goToLower s := by
  show (⟨(s.data.map lowerChar).map lowerChar⟩ : String) = ⟨s.data.map lowerChar⟩
  rw [List.map_map]
  exact congrArg String.mk (List.map_congr_left fun a _ => lowerChar_idem a)

theorem isDigitChar_lowerChar (c : Char) : isDigitChar (lowerChar c) = isDigitChar c := by
  unfold isDigitChar
  rw [lowerChar_toNat]
  split_ifs with h
  · exact decide_eq_decide.mpr (by omega)
  · rfl

theorem isLowerAlnumChar_lowerChar (c : Char) :
    isLowerAlnumChar (lowerChar c) = isAlnumCIChar c := by
  unfold isLowerAlnumChar isAlnumCIChar isLowerAlphaChar isUpperAlphaChar isDigitChar
  rw [lowerChar_toNat]
  rw [Bool.eq_iff_iff]
  simp only [Bool.or_eq_true, decide_eq_true_eq]
  split_ifs with h <;> omega

theorem lowerChar_eq_dash (c : Char) : lowerChar c = '-' ↔ c = '-' := by
  simp only [char_eq_iff_toNat, lowerChar_toNat]
  have hd : ('-').toNat = 45 := rfl
  rw [hd]
  split_ifs with h <;> omega

theorem lowerChar_eq_of_lower (c t T : Char) (h1 : 97 ≤ t.toNat) (h2 : t.toNat ≤ 122)
    (hT : T.toNat + 32 = t.toNat) : lowerChar c = t ↔ (c = t ∨ c = T) := by
  simp only [char_eq_iff_toNat, lowerChar_toNat]
  split_ifs with h <;> omega

theorem lowerChar_eq_b (c : Char) : lowerChar c = 'b' ↔ (c = 'b' ∨ c = 'B') :=
  lowerChar_eq_of_lower c 'b' 'B' (by decide) (by decide) (by decide)

theorem lowerChar_eq_c (c : Char) : lowerChar c = 'c' ↔ (c = 'c' ∨ c = 'C') :=
  lowerChar_eq_of_lower c 'c' 'C' (by decide) (by decide) (by decide)

theorem lowerChar_eq_d (c : Char) : lowerChar c = 'd' ↔ (c = 'd' ∨ c = 'D') :=
  lowerChar_eq_of_lower c 'd' 'D' (by decide) (by decide) (by decide)

theorem lowerChar_eq_s (c : Char) : lowerChar c = 's' ↔ (c = 's' ∨ c = 'S') :=
  lowerChar_eq_of_lower c 's' 'S' (by decide) (by decide) (by decide)

theorem scanTail_map_lowerChar (l : List Char) :
    ∀ m, scanTail m (l.map lowerChar) = scanTailCI m l := by
  induction l with
  | nil => intro m; cases m <;> rfl
  | cons c rest ih =>
    intro m
    cases m with
    | numFirst => simp only [List.map, scanTail, scanTailCI, isDigitChar_lowerChar, ih]
    | num =>
        simp only [List.map, scanTail, scanTailCI, lowerChar_eq_dash, isDigitChar_lowerChar, ih]
    | segFirst => simp only [List.map, scanTail, scanTailCI, isLowerAlnumChar_lowerChar, ih]
    | seg =>
        simp only [List.map, scanTail, scanTailCI, lowerChar_eq_dash, isLowerAlnumChar_lowerChar, ih]

/-- Claim C3: for every string `s` that matches `^bcds-\d+(-[a-z0-9]+)*$`
case-insensitively, the work-item validator accepts the lowercased form
of `s`, and for every string not matching that pattern it rejects: the
validator applied to the lowercased input coincides exactly with the
case-insensitive pattern on the raw input. -/
theorem validateWorkItem_ci_spec (s : String) :
    validateWorkItem (goToLower s) = matchWorkItemCI s := by
  obtain ⟨l⟩ := s
  show validateWorkItem ⟨l.map lowerChar⟩ = matchWorkItemCI ⟨l⟩
  match l with
  | [] => rfl
  | [_] => rfl
  | [_, _] => rfl
  | [_, _, _] => rfl
  | [_, _, _, _] => rfl
  | b :: c :: d :: e :: f :: rest =>
    show (if lowerChar b = 'b' ∧ lowerChar c = 'c' ∧ lowerChar d = 'd' ∧ lowerChar e = 's' ∧
          lowerChar f = '-' then scanTail .numFirst (rest.map lowerChar) else false) =
        (if (b = 'b' ∨ b = 'B') ∧ (c = 'c' ∨ c = 'C') ∧ (d = 'd' ∨ d = 'D') ∧
          (e = 's' ∨ e = 'S') ∧ f = '-' then scanTailCI .numFirst rest else false)
    exact if_congr
      (by simp only [lowerChar_eq_b, lowerChar_eq_c, lowerChar_eq_d, lowerChar_eq_s,
        lowerChar_eq_dash])
      (scanTail_map_lowerChar rest .numFirst) rfl

theorem dropWhile_eq_self_of_rdropWhile {p : Char → Bool} {m : List Char}
    (hm : m.dropWhile p = m) :
    (List.rdropWhile p m).dropWhile p = List.rdropWhile p m := by
  obtain ⟨t, ht⟩ := List.rdropWhile_prefix p m
  cases hr : List.rdropWhile p m with
  | nil => rfl
  | cons a r =>
    rw [hr] at ht
    have hm' : m = a :: (r ++ t) := by rw [← ht]; simp
    have hpa : p a = false := by
      cases hpa : p a with
      | false => rfl
      | true =>
        exfalso
        have hcontra := hm
        rw [hm', List.dropWhile_cons, if_pos hpa] at hcontra
        have hlen := congrArg List.length hcontra
        have hle : (List.dropWhile p (r ++ t)).length ≤ (r ++ t).length :=
          (List.dropWhile_sublist p).length_le
        simp at hlen hle
        omega
    rw [List.dropWhile_cons, if_neg (by simp [hpa])]

theorem trimSpace_idem (s : String) : trimSpace (trimSpace s) = trimSpace s := by
  show (⟨List.rdropWhile isSpaceChar
      ((List.rdropWhile isSpaceChar (s.data.dropWhile isSpaceChar)).dropWhile isSpaceChar)⟩ :
        String) =
    ⟨List.rdropWhile isSpaceChar (s.data.dropWhile isSpaceChar)⟩
  rw [dropWhile_eq_self_of_rdropWhile (List.dropWhile_idempotent _ _),
    List.rdropWhile_idempotent]

/-- Claim C1: the assembled commit message is a pure function of the
validated quadruple: with an empty body it is exactly
`t ++ "(" ++ w ++ "): " ++ d` (no trailing blank line or body section),
and with a non-empty body it is that first line, exactly one blank line
(`"\n\n"`), and the body verbatim. -/
theorem assembleCommitMessage_spec (t w d b : String) :
    assembleCommitMessage t w d "" = t ++ "(" ++ w ++ "): " ++ d ∧
    (b ≠ "" → assembleCommitMessage t w d b = t ++ "(" ++ w ++ "): " ++ d ++ "\n\n" ++ b) := by
  constructor
  · simp [assembleCommitMessage]
  · intro hb
    simp [assembleCommitMessage, hb]

theorem assembleCommitMessage_spec_witness :
    ("line1\nline2" : String) ≠ "" ∧
    assembleCommitMessage "feat" "bcds-42" "Add login flow" "line1\nline2" =
      "feat(bcds-42): Add login flow\n\nline1\nline2" :=
  ⟨by decide,
   ((assembleCommitMessage_spec "feat" "bcds-42" "Add login flow" "line1\nline2").2
      (by decide)).trans (by decide)⟩

/-- Claim C2 (code bug): the character class of `part_000`'s description
regex was textually corrupted — `\(\)` became the literal text
`$begin:math:text$$end:math:text$` — so, contrary to the claim and to
`main.go`'s parallel regex, `part_000`'s validator rejects the
parentheses and accepts `$` and `:`.  `main.go`'s class behaves as the
claim states on those characters. -/
theorem validateEnglishDescription_charClass_bug :
    validateEnglishDescription "(" = false ∧ validateEnglishDescription ")" = false ∧
    validateEnglishDescription "$" = true ∧ validateEnglishDescription ":" = true ∧
    validateEnglishDescriptionMain "(" = true ∧ validateEnglishDescriptionMain ")" = true ∧
    validateEnglishDescriptionMain "$" = false ∧ validateEnglishDescriptionMain ":" = false := by
  decide

/-- Claim C4: the commit-type selector accepts exactly the inputs that
parse as an integer `n` with `1 ≤ n ≤ 10` and then yields the `n`-th
code of the fixed catalog `feat, fix, docs, style, refactor, perf,
test, build, ci, chore`; non-numeric input and integers outside
`[1, 10]` are rejected (and the surrounding loop re-prompts). -/
theorem selectCommitType_spec (s : String) :
    (atoi s = none → selectCommitType s = none) ∧
    (∀ n : Int, atoi s = some n →
      ((1 ≤ n ∧ n ≤ 10) → selectCommitType s = some (catalogCodes.getD (n - 1).toNat "")) ∧
      (¬(1 ≤ n ∧ n ≤ 10) → selectCommitType s = none)) := by
  refine ⟨fun h => by simp [selectCommitType, h], fun n hn => ⟨fun hr => ?_, fun hr => ?_⟩⟩
  · obtain ⟨h1, h2⟩ := hr
    have hlen : (getCommitTypes.length : Int) = 10 := by decide
    simp only [selectCommitType, hn]
    rw [if_pos ⟨h1, hlen ▸ h2⟩]
    interval_cases n <;> decide
  · simp only [selectCommitType, hn]
    rw [if_neg]
    intro hcon
    have hlen : (getCommitTypes.length : Int) = 10 := by decide
    rw [hlen] at hcon
    exact hr hcon

theorem selectCommitType_spec_witness :
    selectCommitType "3" = some "docs" ∧ selectCommitType "0" = none ∧
    selectCommitType "abc" = none :=
  ⟨(((selectCommitType_spec "3").2 3 (by decide)).1 (by decide)).trans (by decide),
   ((selectCommitType_spec "0").2 0 (by decide)).2 (by decide),
   (selectCommitType_spec "abc").1 (by decide)⟩

/-- Claim C5: when the version-control query reports no staged changes
(`git diff --cached --quiet` exits 0), the run terminates with exit
status 1, never invokes the external commit, and consumes no operator
input (every input line is left unread), hence no prompt is ever
answered. -/
theorem mainRun_noStaged_spec (inputs : List String) (commitOk : Bool) :
    mainRun false commitOk inputs = some ⟨1, none, inputs⟩ := rfl

/-- Claim C6: at the confirmation step exactly the case-insensitive
answers `y` and `yes` (after the input trim of `readLine`) are
affirmative; any other answer cancels with exit status 0 and the
external commit is never invoked, while an affirmative answer submits
the message (exit 0 on success, 1 on failure). -/
theorem confirmStep_spec (msg : String) (commitOk : Bool) (ans : String) (rest : List String) :
    (confirmAffirmative ans = true ↔
      (goToLower (trimSpace ans) = "y" ∨ goToLower (trimSpace ans) = "yes")) ∧
    (¬(goToLower (trimSpace ans) = "y" ∨ goToLower (trimSpace ans) = "yes") →
      confirmStep msg commitOk (ans :: rest) = some ⟨0, none, rest⟩) ∧
    ((goToLower (trimSpace ans) = "y" ∨ goToLower (trimSpace ans) = "yes") →
      confirmStep msg commitOk (ans :: rest) =
        some ⟨if commitOk then 0 else 1, some msg, rest⟩) := by
  have hca : confirmAffirmative ans =
      decide (goToLower (trimSpace ans) = "y" ∨ goToLower (trimSpace ans) = "yes") := by
    show decide (goToLower (goToLower (trimSpace ans)) = "y" ∨
        goToLower (goToLower (trimSpace ans)) = "yes") = _
    rw [goToLower_idem]
  refine ⟨by rw [hca]; exact decide_eq_true_iff, fun h => ?_, fun h => ?_⟩
  · have hfalse : confirmAffirmative ans = false := by rw [hca]; exact decide_eq_false h
    simp [confirmStep, hfalse]
  · have htrue : confirmAffirmative ans = true := by rw [hca]; exact decide_eq_true h
    cases commitOk <;> simp [confirmStep, htrue]

theorem confirmStep_spec_witness :
    confirmStep "m" true ["n"] = some ⟨0, none, []⟩ ∧
    confirmStep "m" true ["  Y "] = some ⟨if true then 0 else 1, some "m", []⟩ :=
  ⟨(confirmStep_spec "m" true "n" []).2.1 (by decide),
   (confirmStep_spec "m" true "  Y " []).2.2 (by decide)⟩

/-- Claim C7 (code bug): `part_000`'s catalog is the ordered list of
exactly ten (code, description) pairs with the codes verbatim in the
fixed order, and its menu numbers entry `i` with `i` in that order; but
`main.go` stores the same catalog in a `map[int]` and prints the menu
by ranging over it, so its display order follows Go's unspecified
(run-to-run randomized) map iteration order: two admissible key orders
— both permutations of the key set — produce different menus. -/
theorem commitTypeCatalog_menu_bug :
    getCommitTypes.map CommitType.code = catalogCodes ∧
    part000Menu = [(1, "feat"), (2, "fix"), (3, "docs"), (4, "style"), (5, "refactor"),
      (6, "perf"), (7, "test"), (8, "build"), (9, "ci"), (10, "chore")] ∧
    List.Perm [2, 1, 3, 4, 5, 6, 7, 8, 9, 10] [1, 2, 3, 4, 5, 6, 7, 8, 9, 10] ∧
    mainGoMenu [1, 2, 3, 4, 5, 6, 7, 8, 9, 10] ≠ mainGoMenu [2, 1, 3, 4, 5, 6, 7, 8, 9, 10] := by
  refine ⟨by decide, by decide, by decide, by decide⟩

/-- Claim C8 counterexample: the body collector does not stop only at a
literally empty line — a whitespace-only line also terminates it, since
the source breaks when `strings.TrimSpace(line) == ""`.  On the input
lines `"a"`, `" "`, `"b"`, `""` the code returns `"a"` while the claim,
read literally, yields `"a\n \nb"`. -/
theorem readMultiline_blankLine_counterexample :
    readMultilineBody ["a", " ", "b", ""] = "a" ∧
    specBodyUntilEmpty ["a", " ", "b", ""] = "a\n \nb" ∧
    readMultilineBody ["a", " ", "b", ""] ≠ specBodyUntilEmpty ["a", " ", "b", ""] := by
  decide

/-- Claim C8 (amended): the body collector reads successive lines until
a line that is empty after trimming whitespace (a blank line) and
returns exactly the untrimmed lines read before that terminator joined
with newline separators; with no line before the terminator the result
is the empty string (`intercalate` of `[]`), and no length or
character-set restriction is applied to the collected lines. -/
theorem readMultiline_blankLine_spec (pre : List String) (t : String) (rest : List String)
    (hpre : ∀ l ∈ pre, trimSpace l ≠ "") (ht : trimSpace t = "") :
    readMultiline (pre ++ t :: rest) = (pre, rest) ∧
    readMultilineBody (pre ++ t :: rest) = String.intercalate "\n" pre := by
  have h1 : readMultiline (pre ++ t :: rest) = (pre, rest) := by
    induction pre with
    | nil => simp [readMultiline, ht]
    | cons a pre ih =>
      have ha : trimSpace a ≠ "" := hpre a (by simp)
      have hrec := ih fun l hl => hpre l (by simp [hl])
      simp [readMultiline, ha, hrec]
  exact ⟨h1, by rw [readMultilineBody, h1]⟩

theorem readMultiline_blankLine_spec_witness :
    readMultiline (["x"] ++ " " :: ["z"]) = (["x"], ["z"]) ∧
    readMultilineBody (["x"] ++ " " :: ["z"]) = String.intercalate "\n" ["x"] :=
  readMultiline_blankLine_spec ["x"] " " ["z"] (by decide) (by decide)

/-- Claim C9 counterexample: `main.go`'s validator does not accept
otherwise-valid descriptions *only if* they start with an uppercase
letter — `"42 fixes"` starts with a digit, not an uppercase letter, and
is accepted. -/
theorem capitalRule_counterexample :
    validateEnglishDescriptionMain "42 fixes" = true ∧
    startsWithUpper "42 fixes" = false := by decide

/-- Claim C9 (amended): in `main.go`, where the initial-capital rule is
active, the description validator rejects every description whose first
character is a lowercase Latin letter (the rule tests whether
uppercasing the first character changes it) — in particular
`"hello world!"` is rejected there — while `part_000`, with the rule
commented out, accepts the same input. -/
theorem capitalRule_spec :
    (∀ (d : String) (c : Char) (l : List Char), d.data = c :: l →
      isLowerAlphaChar c = true → validateEnglishDescriptionMain d = false) ∧
    validateEnglishDescriptionMain "hello world!" = false ∧
    validateEnglishDescription "hello world!" = true := by
  refine ⟨?_, by decide, by decide⟩
  intro d c l hd hc
  have hlc : 97 ≤ c.toNat ∧ c.toNat ≤ 122 := of_decide_eq_true hc
  have hupper : upperChar c ≠ c := by
    intro heq
    rw [char_eq_iff_toNat, upperChar_toNat, if_pos hlc] at heq
    omega
  unfold validateEnglishDescriptionMain
  rw [hd]
  rw [if_neg (by simp)]
  by_cases h72 : 72 < (c :: l).length
  · rw [if_pos h72]
  · rw [if_neg h72]
    show (if upperChar c ≠ c then false else (c :: l).all isDescCharMain) = false
    rw [if_pos hupper]

theorem capitalRule_spec_witness : validateEnglishDescriptionMain "hi" = false :=
  capitalRule_spec.1 "hi" 'h' ['i'] (by decide) (by decide)

/-- Claim C10: every single-line operator input is trimmed of
surrounding whitespace by `readLine` before validation or comparison:
trimming is idempotent, the acceptance decisions and resulting values
of the work-item, type-selection, description and confirmation steps
depend only on `trimSpace` of the raw line (so surrounding whitespace
never changes the outcome — e.g. `"  y  "` confirms), and an accepted
description is stored in trimmed form. -/
theorem trimInput_spec :
    (∀ u : String, trimSpace (trimSpace u) = trimSpace u) ∧
    (∀ s t : String, trimSpace s = trimSpace t →
      workItemStep s = workItemStep t ∧ typeStep s = typeStep t ∧
      descStep s = descStep t ∧ confirmAffirmative s = confirmAffirmative t) ∧
    confirmAffirmative "  y  " = true ∧
    (∀ u d : String, descStep u = some d → d = trimSpace u) := by
  refine ⟨trimSpace_idem, ?_, by decide, ?_⟩
  · intro s t h
    refine ⟨?_, ?_, ?_, ?_⟩ <;>
      simp only [workItemStep, typeStep, descStep, confirmAffirmative, readLine, h]
  · intro u d h
    unfold descStep readLine at h
    by_cases hv : validateEnglishDescription (trimSpace u)
    · rw [if_pos hv] at h
      exact (Option.some_inj.mp h).symm
    · rw [if_neg hv] at h
      exact absurd h (by simp)

theorem trimInput_spec_witness :
    workItemStep "  bcds-1  " = workItemStep "bcds-1" :=
  (trimInput_spec.2.1 "  bcds-1  " "bcds-1" (by decide)).1

/-- Sanity: the spec's end-to-end scenario 2/3 (with the `bcds` work
item of this deployment) run through the whole-program model. -/
theorem mainRun_scenario_sanity :
    mainRun true true ["bcds-42", "1", "Add login flow", "", "y"] =
      some ⟨0, some "feat(bcds-42): Add login flow", []⟩ ∧
    mainRun true true ["bcds-42", "1", "Add login flow", "", "n"] =
      some ⟨0, none, []⟩ := by decide
